import Mathlib

/-!
Verification of the DJITelloPy drone-client library against its specification.

The development shallowly embeds the parts of `djitellopy/tello.py` and
`djitellopy/swarm.py` that the checked claims are about:

* Python string primitives used by the library (`strip`, `rstrip`, `split`,
  `lower`, substring containment, `int()` / `float()` parsing of decimal
  literals) are modelled as executable functions on `String` / `List Char`.
* `Tello.parse_state` and its field-type table.
* `Tello.send_rc_control` (RC rate limiter and channel clamping).
* The response-receiver step of `Tello.udp_response_receiver` over the
  process-wide drone registry.
* `Tello.send_command_with_return` twice, at two abstraction levels: a timed
  model (explicit rational clock values, for the inter-command spacing and
  timeout-timestamp claims) and an untimed effect model that threads the drone
  registry and the list of datagrams sent out on the control socket (for the
  retry and teardown claims).
* `Tello.send_control_command`, `Tello.land`, `Tello.streamoff`, `Tello.end`.
* `Tello.send_read_command` / `Tello.query_distance_tof`.
* `TelloSwarm.fromFile` / `TelloSwarm.fromIps`.
* `BackgroundFrameRead` (frame slot, queue, and getter).

Datagram payloads are modelled as `String`s (UTF-8 decoding is the identity in
the model); wall-clock times are rationals (`ℚ`), so `0.1` seconds is exactly
`1/10`.
-/

/-! ### Python string primitives -/

/-- Characters stripped by Python's `str.strip()` with no arguments
(the ASCII whitespace set: space, tab, newline, carriage return,
vertical tab, form feed). -/
def pyIsSpace (c : Char) : Bool :=
  c == ' ' || c == '\t' || c == '\n' || c == '\r' || c == '\x0b' || c == '\x0c'

/-- Python `str.strip()`: remove leading and trailing whitespace. -/
def pyStrip (s : String) : String :=
  ⟨((s.data.dropWhile pyIsSpace).reverse.dropWhile pyIsSpace).reverse⟩

/-- Python `str.rstrip("\r\n")`: remove trailing carriage returns and newlines. -/
def pyRstripCRLF (s : String) : String :=
  ⟨(s.data.reverse.dropWhile (fun c => c == '\r' || c == '\n')).reverse⟩

/-- Python `str.lower()` (ASCII case folding, enough for the protocol strings). -/
def pyLower (s : String) : String :=
  ⟨s.data.map Char.toLower⟩

/-- Occurrence of `needle` as a contiguous subsequence of the haystack,
as in Python's `needle in haystack` on strings. -/
def strOccurs (needle : List Char) : List Char → Bool
  | [] => needle.isEmpty
  | c :: cs => needle.isPrefixOf (c :: cs) || strOccurs needle cs

/-- Python `sub in s` substring containment. -/
def pyContains (s sub : String) : Bool :=
  strOccurs sub.data s.data

/-- Python `str.split(sep)` for a one-character separator, on char lists:
`"" ↦ [""]`, adjacent separators produce empty fields. -/
def splitOnChar (sep : Char) : List Char → List (List Char)
  | [] => [[]]
  | c :: cs =>
    if c == sep then [] :: splitOnChar sep cs
    else
      match splitOnChar sep cs with
      | [] => [[c]]
      | l :: ls => (c :: l) :: ls

/-- Python `str.split(sep)` for a one-character separator. -/
def pySplit (s : String) (sep : Char) : List String :=
  (splitOnChar sep s.data).map (⟨·⟩)

/-- Python slice `s[:-2]`: drop the last two characters (empty when `len(s) ≤ 2`). -/
def pySliceDropLast2 (s : String) : String :=
  ⟨s.data.take (s.data.length - 2)⟩

/-! ### Python `int()` and `float()` on decimal literals -/

/-- Parser for a Python *digitpart*: decimal digits with single underscores
allowed between digits. Accumulates the value and the number of digits seen
(the count is used for the fractional scale in `float()`). -/
def pyDigitsGo (acc cnt : Nat) (afterUnderscore : Bool) : List Char → Option (Nat × Nat)
  | [] => if afterUnderscore then none else some (acc, cnt)
  | c :: cs =>
    if c.isDigit then pyDigitsGo (10 * acc + (c.toNat - 48)) (cnt + 1) false cs
    else if c == '_' && !afterUnderscore then pyDigitsGo acc cnt true cs
    else none

/-- A Python digitpart must begin with a digit (no leading underscore). -/
def pyDigitPart (cs : List Char) : Option (Nat × Nat) :=
  match cs with
  | [] => none
  | c :: _ => if c.isDigit then pyDigitsGo 0 0 false cs else none

/-- Optional sign followed by a digitpart, as accepted by `int()` after
stripping whitespace (and by the exponent of a `float()` literal). -/
def parseSignedDigits (cs : List Char) : Option Int :=
  match cs with
  | [] => none
  | c :: rest =>
    if c == '+' then (pyDigitPart rest).map (fun p => (p.1 : Int))
    else if c == '-' then (pyDigitPart rest).map (fun p => -(p.1 : Int))
    else (pyDigitPart (c :: rest)).map (fun p => (p.1 : Int))

/-- Python `int(s)` on decimal string literals: optional surrounding
whitespace, optional sign, digits with underscore separators. Returns `none`
where `int()` raises `ValueError`. -/
def pyInt (s : String) : Option Int :=
  parseSignedDigits (pyStrip s).data

/-- Result of Python `float(s)`: a finite rational (exact value of the decimal
literal), an infinity, or nan. -/
inductive PyFloat where
  | finite : ℚ → PyFloat
  | inf : PyFloat
  | ninf : PyFloat
  | nan : PyFloat
  deriving Repr, DecidableEq

/-- Split a char list at the first character satisfying `p`; `none` if absent. -/
def breakAtFirst (p : Char → Bool) : List Char → Option (List Char × List Char)
  | [] => none
  | c :: cs =>
    if p c then some ([], cs)
    else (breakAtFirst p cs).map (fun q => (c :: q.1, q.2))

/-- Mantissa of a Python float literal: `digits`, `digits.`, `.digits` or
`digits.digits` (underscore separators allowed inside each digit group). -/
def parseMantissa (cs : List Char) : Option ℚ :=
  match breakAtFirst (fun c => c == '.') cs with
  | none => (pyDigitPart cs).map (fun p => (p.1 : ℚ))
  | some (ip, fp) =>
    match ip, fp with
    | [], [] => none
    | _ :: _, [] => (pyDigitPart ip).map (fun p => (p.1 : ℚ))
    | [], _ :: _ => (pyDigitPart fp).map (fun p => (p.1 : ℚ) / 10 ^ p.2)
    | _ :: _, _ :: _ =>
      match pyDigitPart ip, pyDigitPart fp with
      | some i, some f => some ((i.1 : ℚ) + (f.1 : ℚ) / 10 ^ f.2)
      | _, _ => none

/-- Unsigned part of a Python float literal: `inf`/`infinity`/`nan`
(case-insensitive) or a mantissa with an optional exponent. -/
def pyFloatCore (cs : List Char) : Option PyFloat :=
  let low := cs.map Char.toLower
  if low == "inf".data || low == "infinity".data then some .inf
  else if low == "nan".data then some .nan
  else
    match breakAtFirst (fun c => c == 'e' || c == 'E') cs with
    | none => (parseMantissa cs).map .finite
    | some (m, e) =>
      match parseMantissa m, parseSignedDigits e with
      | some q, some k => some (.finite (q * 10 ^ k))
      | _, _ => none

/-- Negation of a Python float value. -/
def PyFloat.negate : PyFloat → PyFloat
  | .finite q => .finite (-q)
  | .inf => .ninf
  | .ninf => .inf
  | .nan => .nan

/-- Python `float(s)`: optional surrounding whitespace and sign around the
unsigned float literal. Returns `none` where `float()` raises `ValueError`. -/
def pyFloat (s : String) : Option PyFloat :=
  match (pyStrip s).data with
  | [] => none
  | c :: rest =>
    if c == '+' then pyFloatCore rest
    else if c == '-' then (pyFloatCore rest).map PyFloat.negate
    else pyFloatCore (c :: rest)

/-! ### `Tello.parse_state` and the state field-type table -/

/-- `Tello.INT_STATE_FIELDS`. -/
def INT_STATE_FIELDS : List String :=
  ["mid", "x", "y", "z",
   "pitch", "roll", "yaw",
   "vgx", "vgy", "vgz",
   "templ", "temph",
   "tof", "h", "bat", "time"]

/-- `Tello.FLOAT_STATE_FIELDS`. -/
def FLOAT_STATE_FIELDS : List String := ["baro", "agx", "agy", "agz"]

/-- A parsed state value: `int`, `float`, or raw string, mirroring the
`Union[int, float, str]` values produced by `Tello.parse_state`. -/
inductive StateVal where
  | i : Int → StateVal
  | f : PyFloat → StateVal
  | s : String → StateVal
  deriving Repr, DecidableEq

/-- Python `dict` assignment `d[k] = v` on an insertion-ordered association
list: overwrite in place if the key exists, else append. -/
def dictSet : List (String × StateVal) → String → StateVal → List (String × StateVal)
  | [], k, v => [(k, v)]
  | (k', v') :: rest, k, v =>
    if k' = k then (k', v) :: rest else (k', v') :: dictSet rest k v

/-- One iteration of the field loop inside `Tello.parse_state`: skip fields
with fewer than two colon-separated parts; convert the value with the type
table, dropping the field if the conversion fails; keep unknown keys as raw
strings. -/
def parseStateField (acc : List (String × StateVal)) (field : String) :
    List (String × StateVal) :=
  match pySplit field ':' with
  | key :: value :: _ =>
    if key ∈ INT_STATE_FIELDS then
      match pyInt value with
      | some n => dictSet acc key (.i n)
      | none => acc
    else if key ∈ FLOAT_STATE_FIELDS then
      match pyFloat value with
      | some q => dictSet acc key (.f q)
      | none => acc
    else dictSet acc key (.s value)
  | _ => acc

/-- `Tello.parse_state`: strip the datagram, return the empty map for the
`"ok"` ack, otherwise fold the `;`-separated fields. -/
def parse_state (state : String) : List (String × StateVal) :=
  let st := pyStrip state
  if st = "ok" then []
  else (pySplit st ';').foldl parseStateField []

/-! ### Claim C3: parsed values match the type table -/

/-- Well-typedness of one parsed entry with respect to the field-type table:
keys in the int table carry ints, keys in the float table carry floats, keys
in neither carry the raw string. -/
def stateValMatchesTable (kv : String × StateVal) : Prop :=
  (kv.1 ∈ INT_STATE_FIELDS → ∃ n, kv.2 = StateVal.i n)
  ∧ (kv.1 ∈ FLOAT_STATE_FIELDS → ∃ q, kv.2 = StateVal.f q)
  ∧ (kv.1 ∉ INT_STATE_FIELDS → kv.1 ∉ FLOAT_STATE_FIELDS → ∃ raw, kv.2 = StateVal.s raw)

theorem int_float_fields_disjoint {k : String} (h1 : k ∈ INT_STATE_FIELDS) :
    k ∉ FLOAT_STATE_FIELDS := by
  fin_cases h1 <;> decide

theorem mem_dictSet (d : List (String × StateVal)) (k : String) (v : StateVal)
    (kv : String × StateVal) (h : kv ∈ dictSet d k v) : kv ∈ d ∨ kv = (k, v) := by
  induction d with
  | nil =>
    simp only [dictSet, List.mem_singleton] at h
    exact Or.inr h
  | cons hd tl ih =>
    obtain ⟨k', v'⟩ := hd
    by_cases hk : k' = k
    · rw [dictSet, if_pos hk] at h
      rcases List.mem_cons.mp h with h | h
      · exact Or.inr (by rw [h, hk])
      · exact Or.inl (List.mem_cons_of_mem _ h)
    · rw [dictSet, if_neg hk] at h
      rcases List.mem_cons.mp h with h | h
      · exact Or.inl (h ▸ List.mem_cons_self _ _)
      · rcases ih h with h' | h'
        · exact Or.inl (List.mem_cons_of_mem _ h')
        · exact Or.inr h'

theorem parseStateField_welltyped (acc : List (String × StateVal)) (field : String)
    (hacc : ∀ kv ∈ acc, stateValMatchesTable kv) :
    ∀ kv ∈ parseStateField acc field, stateValMatchesTable kv := by
  intro kv hkv
  unfold parseStateField at hkv
  rcases hsplit : pySplit field ':' with _ | ⟨key, _ | ⟨value, rest⟩⟩
  · rw [hsplit] at hkv; exact hacc kv hkv
  · rw [hsplit] at hkv; exact hacc kv hkv
  · rw [hsplit] at hkv
    dsimp only at hkv
    by_cases hint : key ∈ INT_STATE_FIELDS
    · rw [if_pos hint] at hkv
      rcases hval : pyInt value with _ | n
      · rw [hval] at hkv; exact hacc kv hkv
      · rw [hval] at hkv
        rcases mem_dictSet _ _ _ _ hkv with h | h
        · exact hacc kv h
        · subst h
          exact ⟨fun _ => ⟨n, rfl⟩,
                 fun hf => absurd hf (int_float_fields_disjoint hint),
                 fun hni _ => absurd hint hni⟩
    · rw [if_neg hint] at hkv
      by_cases hfl : key ∈ FLOAT_STATE_FIELDS
      · rw [if_pos hfl] at hkv
        rcases hval : pyFloat value with _ | q
        · rw [hval] at hkv; exact hacc kv hkv
        · rw [hval] at hkv
          rcases mem_dictSet _ _ _ _ hkv with h | h
          · exact hacc kv h
          · subst h
            exact ⟨fun hi => absurd hi hint,
                   fun _ => ⟨q, rfl⟩,
                   fun _ hnf => absurd hfl hnf⟩
      · rw [if_neg hfl] at hkv
        rcases mem_dictSet _ _ _ _ hkv with h | h
        · exact hacc kv h
        · subst h
          exact ⟨fun hi => absurd hi hint,
                 fun hf => absurd hf hfl,
                 fun _ _ => ⟨value, rfl⟩⟩

theorem foldl_parseStateField_welltyped (fields : List String)
    (acc : List (String × StateVal)) (hacc : ∀ kv ∈ acc, stateValMatchesTable kv) :
    ∀ kv ∈ fields.foldl parseStateField acc, stateValMatchesTable kv := by
  induction fields generalizing acc with
  | nil => simpa using hacc
  | cons fd fs ih =>
    intro kv hkv
    exact ih _ (parseStateField_welltyped acc fd hacc) kv (by simpa using hkv)

/-- C3: for every input string, `parse_state` returns the empty map when the
stripped input is exactly `"ok"`; every entry of the result is typed exactly
per the field-type table (int fields to ints, float fields to floats, unknown
keys kept as raw strings); a field whose int conversion fails is omitted while
the rest of the datagram is kept (`"bat:abc;h:5"`); a field with fewer than two
colon-separated parts is skipped (`"x"`); an unknown key keeps its raw string
value (`"mpry:1,2,3"`). -/
theorem parse_state_matches_type_table (input : String) :
    (pyStrip input = "ok" → parse_state input = [])
    ∧ (∀ kv ∈ parse_state input, stateValMatchesTable kv)
    ∧ parse_state "bat:abc;h:5" = [("h", StateVal.i 5)]
    ∧ parse_state "x" = []
    ∧ parse_state "mpry:1,2,3" = [("mpry", StateVal.s "1,2,3")] := by
  refine ⟨?_, ?_, by decide, by decide, by decide⟩
  · intro h
    unfold parse_state
    rw [h]
    rfl
  · intro kv hkv
    unfold parse_state at hkv
    by_cases h : pyStrip input = "ok"
    · rw [if_pos h] at hkv; simp at hkv
    · rw [if_neg h] at hkv
      exact foldl_parseStateField_welltyped _ _ (by simp) kv hkv

/-- Witness for C3 at concrete inputs: the `" ok "` ack parses to the empty
map, and the `bat` entry of a concrete datagram is an int as the table says. -/
theorem parse_state_matches_type_table_w :
    parse_state " ok " = []
    ∧ ∃ n, (("bat", StateVal.i 87) : String × StateVal).2 = StateVal.i n :=
  ⟨(parse_state_matches_type_table " ok ").1 (by decide),
   (((parse_state_matches_type_table "bat:87").2.1 ("bat", StateVal.i 87) (by decide)).1 (by decide))⟩

/-! ### Claim C4: `Tello.send_rc_control` -/

/-- `Tello.TIME_BTW_COMMANDS` (0.1 s). -/
def TIME_BTW_COMMANDS : ℚ := 1 / 10

/-- `Tello.TIME_BTW_RC_CONTROL_COMMANDS` (0.001 s). -/
def TIME_BTW_RC_CONTROL_COMMANDS : ℚ := 1 / 1000

/-- The local helper `clamp100` inside `Tello.send_rc_control`. -/
def clamp100 (x : Int) : Int := max (-100) (min 100 x)

/-- `Tello.send_rc_control`: if the elapsed time since
`last_rc_control_timestamp` exceeds `TIME_BTW_RC_CONTROL_COMMANDS`, record the
new timestamp and emit one `rc` datagram with each channel clamped; otherwise
do nothing. Returns the new timestamp and the datagram sent, if any. -/
def send_rc_control (last_rc_control_timestamp now : ℚ)
    (left_right_velocity forward_backward_velocity up_down_velocity yaw_velocity : Int) :
    ℚ × Option String :=
  if now - last_rc_control_timestamp > TIME_BTW_RC_CONTROL_COMMANDS then
    (now, some ("rc " ++ toString (clamp100 left_right_velocity)
      ++ " " ++ toString (clamp100 forward_backward_velocity)
      ++ " " ++ toString (clamp100 up_down_velocity)
      ++ " " ++ toString (clamp100 yaw_velocity)))
  else (last_rc_control_timestamp, none)

/-- C4: `send_rc_control` drops the call silently (no datagram, no state
change) when the elapsed time since the last RC command is at most
`TIME_BTW_RC_CONTROL_COMMANDS`; otherwise it updates the timestamp and sends
exactly one `rc` datagram with every channel clamped to [-100, 100]; in
particular `send_rc_control(250, -300, 0, 50)` emits `rc 100 -100 0 50`. -/
theorem send_rc_control_spec (last now : ℚ) (lr fb ud yaw : Int) :
    (now - last ≤ TIME_BTW_RC_CONTROL_COMMANDS →
      send_rc_control last now lr fb ud yaw = (last, none))
    ∧ (TIME_BTW_RC_CONTROL_COMMANDS < now - last →
      send_rc_control last now lr fb ud yaw
        = (now, some ("rc " ++ toString (clamp100 lr) ++ " " ++ toString (clamp100 fb)
            ++ " " ++ toString (clamp100 ud) ++ " " ++ toString (clamp100 yaw))))
    ∧ (∀ x : Int, -100 ≤ clamp100 x ∧ clamp100 x ≤ 100)
    ∧ send_rc_control 0 1 250 (-300) 0 50 = (1, some "rc 100 -100 0 50") := by
  refine ⟨?_, ?_, ?_, ?_⟩
  · intro h
    rw [send_rc_control, if_neg (by exact not_lt.mpr h)]
  · intro h
    rw [send_rc_control, if_pos h]
  · intro x
    constructor
    · exact le_max_left _ _
    · rw [clamp100]
      rcases le_total x 100 with h | h
      · exact max_le (by norm_num) (le_trans (min_le_right _ _) h)
      · exact max_le (by norm_num) (min_le_left _ _)
  · rw [send_rc_control,
      if_pos (by rw [TIME_BTW_RC_CONTROL_COMMANDS]; norm_num)]
    refine Prod.ext rfl ?_
    decide

theorem rc_gap_zero_le : (0 : ℚ) - 0 ≤ TIME_BTW_RC_CONTROL_COMMANDS := by
  rw [TIME_BTW_RC_CONTROL_COMMANDS]; norm_num

/-- Witness for C4: a call arriving within the rate-limit window is dropped
with the timestamp unchanged. -/
theorem send_rc_control_spec_w :
    send_rc_control 0 0 10 20 30 40 = (0, none) :=
  (send_rc_control_spec 0 0 10 20 30 40).1 rc_gap_zero_le

/-! ### Claim C5: one step of `Tello.udp_response_receiver` -/

/-- Lookup in the process-wide `drones` registry, keyed by IP; a mailbox is
the drone's list of pending response datagrams in arrival order. -/
def lookupReg : List (String × List String) → String → Option (List String)
  | [], _ => none
  | (k, v) :: rest, key => if k = key then some v else lookupReg rest key

/-- `drones[address]["responses"].append(data)`: append a datagram to the
mailbox of the given IP, leaving all other entries unchanged. -/
def appendResponse : List (String × List String) → String → String →
    List (String × List String)
  | [], _, _ => []
  | (k, v) :: rest, key, data =>
    if k = key then (k, v ++ [data]) :: rest else (k, v) :: appendResponse rest key data

/-- One iteration of the `Tello.udp_response_receiver` loop after
`recvfrom(1024)` yields datagram `data` from source IP `srcIp`: unknown
sources are dropped, known sources get the datagram appended to their
mailbox. -/
def udp_response_receiver_step (registry : List (String × List String))
    (srcIp data : String) : List (String × List String) :=
  match lookupReg registry srcIp with
  | none => registry
  | some _ => appendResponse registry srcIp data

theorem lookup_appendResponse_self (l : List (String × List String)) (k d : String)
    (mb : List String) (h : lookupReg l k = some mb) :
    lookupReg (appendResponse l k d) k = some (mb ++ [d]) := by
  induction l with
  | nil => simp [lookupReg] at h
  | cons hd tl ih =>
    obtain ⟨k', v'⟩ := hd
    by_cases hk : k' = k
    · rw [lookupReg, if_pos hk] at h
      rw [appendResponse, if_pos hk, lookupReg, if_pos hk]
      rw [Option.some_inj.mp h]
    · rw [lookupReg, if_neg hk] at h
      rw [appendResponse, if_neg hk, lookupReg, if_neg hk]
      exact ih h

theorem lookup_appendResponse_other (l : List (String × List String)) (k d other : String)
    (h : other ≠ k) :
    lookupReg (appendResponse l k d) other = lookupReg l other := by
  induction l with
  | nil => rfl
  | cons hd tl ih =>
    obtain ⟨k', v'⟩ := hd
    by_cases hk : k' = k
    · have ho : ¬ k' = other := fun he => h (he ▸ hk ▸ rfl)
      rw [appendResponse, if_pos hk, lookupReg, if_neg ho, lookupReg, if_neg ho]
    · rw [appendResponse, if_neg hk]
      by_cases ho : k' = other
      · rw [lookupReg, if_pos ho, lookupReg, if_pos ho]
      · rw [lookupReg, if_neg ho, lookupReg, if_neg ho]
        exact ih

/-- C5: one receiver step on a datagram of at most 1024 bytes from source IP
`A` appends the datagram to `A`'s mailbox when `A` is registered, leaves every
other drone's mailbox unchanged, and changes nothing at all when `A` is not
registered. -/
theorem udp_response_receiver_step_isolation
    (registry : List (String × List String)) (A data : String)
    (_hsize : data.utf8ByteSize ≤ 1024) :
    (∀ mb, lookupReg registry A = some mb →
      lookupReg (udp_response_receiver_step registry A data) A = some (mb ++ [data])
      ∧ ∀ B, B ≠ A →
          lookupReg (udp_response_receiver_step registry A data) B = lookupReg registry B)
    ∧ (lookupReg registry A = none →
        udp_response_receiver_step registry A data = registry) := by
  constructor
  · intro mb hmb
    rw [udp_response_receiver_step, hmb]
    exact ⟨lookup_appendResponse_self _ _ _ _ hmb,
           fun B hB => lookup_appendResponse_other _ _ _ _ hB⟩
  · intro hnone
    rw [udp_response_receiver_step, hnone]

/-- Witness for C5: with drones at 192.168.10.1 and 192.168.10.2 registered, a
datagram from the first lands in its mailbox only, and the second drone's
mailbox is untouched. -/
theorem udp_response_receiver_step_isolation_w :
    lookupReg (udp_response_receiver_step
        [("192.168.10.1", []), ("192.168.10.2", ["x"])] "192.168.10.1" "ok")
      "192.168.10.1" = some ["ok"]
    ∧ lookupReg (udp_response_receiver_step
        [("192.168.10.1", []), ("192.168.10.2", ["x"])] "192.168.10.1" "ok")
      "192.168.10.2" = lookupReg [("192.168.10.1", []), ("192.168.10.2", ["x"])] "192.168.10.2" := by
  have h := (udp_response_receiver_step_isolation
    [("192.168.10.1", []), ("192.168.10.2", ["x"])] "192.168.10.1" "ok" (by decide)).1
    [] (by decide)
  exact ⟨h.1, h.2 "192.168.10.2" (by decide)⟩

/-! ### Untimed effect model of the command path

This model threads two observable effects: the process-wide `drones` registry
(IP to pending response datagrams) and the list of datagrams sent out on the
control socket. Responses a drone will produce are preloaded in its mailbox;
an empty mailbox means every wait for a response times out. Timestamps are
irrelevant to the claims proved against this model and are omitted. -/

/-- Python exceptions that can escape the modelled code paths:
`TelloException` with its message, a `KeyError` from `drones[host]`, and a
`ValueError` from `int()`. -/
inductive PyError where
  | telloExc : String → PyError
  | keyError : PyError
  | valueError : PyError
  deriving Repr, DecidableEq

instance {e a : Type} [DecidableEq e] [DecidableEq a] : DecidableEq (Except e a) := fun x y =>
  match x, y with
  | .error u, .error v => decidable_of_iff (u = v) (by simp)
  | .ok u, .ok v => decidable_of_iff (u = v) (by simp)
  | .error _, .ok _ => .isFalse (by simp)
  | .ok _, .error _ => .isFalse (by simp)

/-- Observable world state: the drone registry and the datagrams sent on the
control socket, oldest first. -/
structure World where
  registry : List (String × List String)
  sent : List String
  deriving Repr, DecidableEq

/-- The timeout message built by `Tello.send_command_with_return` when no
response datagram arrives within `timeout` seconds. -/
def abortMsg (command : String) (timeout : Nat) : String :=
  "Aborting command '" ++ command ++ "'. Did not receive a response after "
    ++ toString timeout ++ " seconds"

/-- Replace the mailbox of `key` in the registry. -/
def setReg : List (String × List String) → String → List String →
    List (String × List String)
  | [], _, _ => []
  | (k, v) :: rest, key, mb =>
    if k = key then (k, mb) :: rest else (k, v) :: setReg rest key mb

/-- `Tello.send_command_with_return` in the untimed model: append the command
to the sent datagrams, look the host up in the registry (a missing entry is a
`KeyError`, as raised by `get_own_udp_object`), then either report the timeout
message (empty mailbox) or pop the oldest datagram and strip trailing CR/LF. -/
def sendCommandWithReturn (w : World) (host command : String) (timeout : Nat) :
    World × Except PyError String :=
  let w1 : World := { w with sent := w.sent ++ [command] }
  match lookupReg w1.registry host with
  | none => (w1, .error .keyError)
  | some [] => (w1, .ok (abortMsg command timeout))
  | some (r :: rest) =>
    ({ w1 with registry := setReg w1.registry host rest }, .ok (pyRstripCRLF r))

/-- The message of `Tello.raise_result_error`: note it reports
`1 + retry_count` tries. -/
def resultErrorMsg (command : String) (tries : Nat) (response : String) : String :=
  "Command '" ++ command ++ "' was unsuccessful for " ++ toString tries
    ++ " tries. Latest response:\t'" ++ response ++ "'"

/-- The retry loop of `Tello.send_control_command`
(`for i in range(0, self.retry_count)`): `fuel` counts the remaining loop
iterations, `lastResponse` the value of the `response` variable. On
exhaustion `raise_result_error` raises a `TelloException` reporting
`1 + retryCount` tries. -/
def sendControlLoop (host command : String) (timeout retryCount : Nat) :
    Nat → World → String → World × Except PyError Bool
  | 0, w, lastResponse =>
    (w, .error (.telloExc (resultErrorMsg command (1 + retryCount) lastResponse)))
  | fuel + 1, w, _ =>
    match sendCommandWithReturn w host command timeout with
    | (w1, .error e) => (w1, .error e)
    | (w1, .ok r) =>
      if pyContains (pyLower r) "ok" then (w1, .ok true)
      else sendControlLoop host command timeout retryCount fuel w1 r

/-- `Tello.send_control_command`: run the retry loop `retry_count` times
starting from the initial `response = "max retries exceeded"`. -/
def send_control_command (w : World) (host command : String) (timeout retryCount : Nat) :
    World × Except PyError Bool :=
  sendControlLoop host command timeout retryCount retryCount w "max retries exceeded"

/-- C1 (against the claim): with `retry_count = 3` and a drone that never
responds, `send_control_command` performs exactly 3 send attempts — the loop
is `range(0, retry_count)`, so there is no additional initial attempt — yet
the raised `TelloException` reports `1 + retry_count = 4` tries. The claimed
`retryCount + 1 = 4` send attempts do not happen. -/
theorem send_control_command_three_attempts_reports_four :
    (send_control_command ⟨[("192.168.10.1", [])], []⟩ "192.168.10.1" "command" 7 3).1.sent
      = ["command", "command", "command"]
    ∧ (send_control_command ⟨[("192.168.10.1", [])], []⟩ "192.168.10.1" "command" 7 3).2
      = .error (.telloExc (resultErrorMsg "command" 4 (abortMsg "command" 7)))
    ∧ ["command", "command", "command"].length ≠ 3 + 1 := by
  refine ⟨by decide, by decide, by decide⟩

/-! ### Claim C7: `Tello.end` -/

/-- The per-drone attributes of `Tello` that `end()` reads or writes. The
`bfr` field models `background_frame_read` as an optional worker handle. -/
structure TelloSt where
  host : String
  retryCount : Nat
  is_flying : Bool
  stream_on : Bool
  bfr : Option Unit
  deriving Repr, DecidableEq

/-- `Tello.land`: send the `land` control command, then clear `is_flying`.
If the command raises, `is_flying` is left set. -/
def landM (w : World) (t : TelloSt) : World × Except PyError TelloSt :=
  match send_control_command w t.host "land" 7 t.retryCount with
  | (w1, .ok _) => (w1, .ok { t with is_flying := false })
  | (w1, .error e) => (w1, .error e)

/-- `Tello.streamoff`: send the `streamoff` control command, then clear
`stream_on`, stop the frame worker and drop its handle. If the command
raises, all flags are left set. -/
def streamoffM (w : World) (t : TelloSt) : World × Except PyError TelloSt :=
  match send_control_command w t.host "streamoff" 7 t.retryCount with
  | (w1, .ok _) => (w1, .ok { t with stream_on := false, bfr := none })
  | (w1, .error e) => (w1, .error e)

/-- The `try` block of `Tello.end`: land if flying, then streamoff if
streaming. A `TelloException` is swallowed (and aborts the rest of the
block); any other exception is returned for propagation. -/
def endTryBlock (w : World) (t : TelloSt) : World × TelloSt × Option PyError :=
  if t.is_flying then
    match landM w t with
    | (w1, .ok t1) =>
      if t1.stream_on then
        match streamoffM w1 t1 with
        | (w2, .ok t2) => (w2, t2, none)
        | (w2, .error (.telloExc _)) => (w2, t1, none)
        | (w2, .error e) => (w2, t1, some e)
      else (w1, t1, none)
    | (w1, .error (.telloExc _)) => (w1, t, none)
    | (w1, .error e) => (w1, t, some e)
  else if t.stream_on then
    match streamoffM w t with
    | (w1, .ok t1) => (w1, t1, none)
    | (w1, .error (.telloExc _)) => (w1, t, none)
    | (w1, .error e) => (w1, t, some e)
  else (w, t, none)

/-- Remove a drone's entry from the registry (`del drones[host]`). -/
def removeReg : List (String × List String) → String → List (String × List String)
  | [], _ => []
  | (k, v) :: rest, key =>
    if k = key then removeReg rest key else (k, v) :: removeReg rest key

/-- `Tello.end`: run the try block (an uncaught exception propagates and
skips the cleanup), then stop and drop the frame worker and delete the
drone's registry entry if present. -/
def tello_end (w : World) (t : TelloSt) : World × Except PyError TelloSt :=
  match endTryBlock w t with
  | (w1, _, some e) => (w1, .error e)
  | (w1, t1, none) =>
    ({ w1 with registry := removeReg w1.registry t1.host },
     .ok { t1 with bfr := none })

/-- C7 counterexample: a drone whose teardown `land` fails. The first `end()`
swallows the failure but leaves `is_flying` set and removes the registry
entry; the second `end()` re-sends `land` (an observable datagram) and then
raises a `KeyError` from the deleted registry entry — so the second call both
changes state and raises, falsifying the claimed idempotence. -/
theorem tello_end_not_idempotent :
    tello_end ⟨[("192.168.10.1", [])], []⟩
        ⟨"192.168.10.1", 1, true, false, none⟩
      = (⟨[], ["land"]⟩, .ok ⟨"192.168.10.1", 1, true, false, none⟩)
    ∧ tello_end ⟨[], ["land"]⟩ ⟨"192.168.10.1", 1, true, false, none⟩
      = (⟨[], ["land", "land"]⟩, .error .keyError)
    ∧ (["land", "land"] : List String) ≠ ["land"] := by
  refine ⟨by decide, by decide, by decide⟩

theorem lookupReg_removeReg (l : List (String × List String)) (k : String) :
    lookupReg (removeReg l k) k = none := by
  induction l with
  | nil => rfl
  | cons hd tl ih =>
    obtain ⟨k', v'⟩ := hd
    by_cases hk : k' = k
    · rw [removeReg, if_pos hk]; exact ih
    · rw [removeReg, if_neg hk, lookupReg, if_neg hk]; exact ih

theorem removeReg_of_lookup_none (l : List (String × List String)) (k : String)
    (h : lookupReg l k = none) : removeReg l k = l := by
  induction l with
  | nil => rfl
  | cons hd tl ih =>
    obtain ⟨k', v'⟩ := hd
    by_cases hk : k' = k
    · rw [lookupReg, if_pos hk] at h; exact absurd h (by simp)
    · rw [lookupReg, if_neg hk] at h
      rw [removeReg, if_neg hk, ih h]

theorem tello_end_ok_state {w w' : World} {t t' : TelloSt}
    (h : tello_end w t = (w', .ok t')) :
    t'.bfr = none ∧ lookupReg w'.registry t'.host = none := by
  rw [tello_end] at h
  rcases he : endTryBlock w t with ⟨w1, t1, oe⟩
  rw [he] at h
  cases oe with
  | some e => simp at h
  | none =>
    dsimp only at h
    cases h
    exact ⟨rfl, lookupReg_removeReg _ _⟩

/-- C7 amended: `end()` is idempotent on every drone whose first `end()`
completed with `is_flying` and `stream_on` clear — in particular whenever the
drone was not flying and not streaming, or the teardown `land`/`streamoff`
commands succeeded. The second call then changes no state, sends nothing and
raises nothing. (When teardown's `land` fails, the flags survive and a second
`end()` re-sends `land` and raises a `KeyError`; see the counterexample.) -/
theorem tello_end_idempotent_when_teardown_succeeds {w w' : World} {t t' : TelloSt}
    (h : tello_end w t = (w', .ok t'))
    (hf : t'.is_flying = false) (hs : t'.stream_on = false) :
    tello_end w' t' = (w', .ok t') := by
  obtain ⟨hb, hl⟩ := tello_end_ok_state h
  rw [tello_end, endTryBlock, hf, hs]
  simp only [Bool.false_eq_true, if_false]
  rw [removeReg_of_lookup_none _ _ hl]
  have ht : ({ t' with bfr := none } : TelloSt) = t' := by
    cases t'
    cases hb
    rfl
  have hw : ({ w' with registry := w'.registry } : World) = w' := by
    cases w'
    rfl
  rw [ht, hw]

/-- Witness for the amended C7: a drone that is neither flying nor streaming;
its second `end()` is a no-op. -/
theorem tello_end_idempotent_w :
    tello_end ⟨[], []⟩ ⟨"192.168.10.1", 1, false, false, none⟩
      = (⟨[], []⟩, .ok ⟨"192.168.10.1", 1, false, false, none⟩) :=
  tello_end_idempotent_when_teardown_succeeds
    (show tello_end ⟨[("192.168.10.1", [])], []⟩ ⟨"192.168.10.1", 1, false, false, none⟩
        = (⟨[], []⟩, .ok ⟨"192.168.10.1", 1, false, false, none⟩) by decide)
    rfl rfl

/-! ### Timed model of `Tello.send_command_with_return` (claims C2 and C10)

Clock readings are passed in explicitly: `last` is
`self.last_received_command_timestamp` at entry, `now` the `time.time()` read
at the top of the function, and `popNow` the `time.time()` read on the branch
where a response datagram is popped. An empty `responses` list models a drone
from which no datagram arrives within `timeout` seconds. -/

/-- The timeout message with the timeout rendered from a rational number of
seconds. -/
def abortMsgQ (command : String) (timeout : ℚ) : String :=
  "Aborting command '" ++ command ++ "'. Did not receive a response after "
    ++ toString timeout ++ " seconds"

/-- Fields observable about one `send_command_with_return` call: the returned
string, the value of `last_received_command_timestamp` afterwards, and how
long the spacing branch slept. -/
structure TimedSendResult where
  response : String
  lastTimestamp : ℚ
  slept : ℚ
  deriving Repr

/-- `Tello.send_command_with_return` with explicit clocks. The spacing branch
computes `diff = now - last` and, when `diff < TIME_BTW_COMMANDS`, sleeps
`diff` — exactly as the source's `time.sleep(diff)` does. On timeout the
function returns the abort message and leaves the timestamp untouched; when a
datagram is popped the timestamp becomes `popNow` and the response is the
datagram with trailing CR/LF stripped. -/
def send_command_with_return_timed (last now popNow : ℚ) (command : String)
    (timeout : ℚ) (responses : List String) : TimedSendResult :=
  let diff := now - last
  let slept := if diff < TIME_BTW_COMMANDS then diff else 0
  match responses with
  | [] => { response := abortMsgQ command timeout, lastTimestamp := last, slept := slept }
  | r :: _ => { response := pyRstripCRLF r, lastTimestamp := popNow, slept := slept }

/-- C2 (against the claim): when a command arrives 0.01 s after the previous
one, the sender sleeps `diff = 0.01` s — not the claimed
`TIME_BTW_COMMANDS - diff = 0.09` s — so the two sends are separated by only
0.02 s, less than `TIME_BTW_COMMANDS`. -/
theorem spacing_sleeps_elapsed_not_difference :
    (send_command_with_return_timed 0 (1/100) (1/50) "command" 7 ["ok"]).slept = 1/100
    ∧ (send_command_with_return_timed 0 (1/100) (1/50) "command" 7 ["ok"]).slept
        ≠ TIME_BTW_COMMANDS - ((1:ℚ)/100 - 0)
    ∧ (1:ℚ)/100 + 1/100 < TIME_BTW_COMMANDS := by
  have he : (send_command_with_return_timed 0 (1/100) (1/50) "command" 7 ["ok"]).slept
      = 1/100 := by
    show (if (1:ℚ)/100 - 0 < TIME_BTW_COMMANDS then (1:ℚ)/100 - 0 else 0) = 1/100
    rw [if_pos (by rw [TIME_BTW_COMMANDS]; norm_num)]
    norm_num
  refine ⟨he, ?_, by rw [TIME_BTW_COMMANDS]; norm_num⟩
  rw [he, TIME_BTW_COMMANDS]
  norm_num

/-- C10: a timed-out `send_command_with_return` returns the timeout message
and leaves `last_received_command_timestamp` unchanged; the timestamp is set
(to the pop-time clock) only on the branch that pops a datagram; and a
command issued after the timeout has elapsed incurs no inter-command spacing
sleep, because the stale timestamp makes the measured gap at least `timeout ≥
TIME_BTW_COMMANDS`. -/
theorem timeout_leaves_timestamp_unchanged
    (last now popNow now2 popNow2 timeout timeout2 : ℚ) (cmd cmd2 : String)
    (rs2 : List String)
    (h1 : last ≤ now) (h2 : now + timeout ≤ now2) (h3 : TIME_BTW_COMMANDS ≤ timeout) :
    (send_command_with_return_timed last now popNow cmd timeout []).response
      = abortMsgQ cmd timeout
    ∧ (send_command_with_return_timed last now popNow cmd timeout []).lastTimestamp = last
    ∧ (∀ r rest popN,
        (send_command_with_return_timed last now popN cmd timeout (r :: rest)).lastTimestamp
          = popN)
    ∧ (send_command_with_return_timed last now2 popNow2 cmd2 timeout2 rs2).slept = 0 := by
  refine ⟨rfl, rfl, fun r rest popN => rfl, ?_⟩
  have hgap : ¬ (now2 - last < TIME_BTW_COMMANDS) := by
    push_neg
    calc TIME_BTW_COMMANDS ≤ timeout := h3
    _ ≤ now2 - now := by linarith
    _ ≤ now2 - last := by linarith
  cases rs2 with
  | nil =>
    show (if now2 - last < TIME_BTW_COMMANDS then now2 - last else 0) = 0
    rw [if_neg hgap]
  | cons r rest =>
    show (if now2 - last < TIME_BTW_COMMANDS then now2 - last else 0) = 0
    rw [if_neg hgap]

theorem q_last_le_now : (0:ℚ) ≤ 0 := le_refl 0

theorem q_now_timeout_le : (0:ℚ) + 7 ≤ 7 := by norm_num

theorem q_tbc_le_timeout : TIME_BTW_COMMANDS ≤ (7:ℚ) := by
  rw [TIME_BTW_COMMANDS]; norm_num

/-- Witness for C10 at concrete clocks: a `command` that times out at t = 0
with a 7 s timeout keeps timestamp 0, and the follow-up at t = 7 sleeps 0. -/
theorem timeout_leaves_timestamp_unchanged_w :
    (send_command_with_return_timed 0 0 0 "command" 7 []).response = abortMsgQ "command" 7
    ∧ (send_command_with_return_timed 0 0 0 "command" 7 []).lastTimestamp = 0
    ∧ (∀ r rest popN,
        (send_command_with_return_timed 0 0 popN "command" 7 (r :: rest)).lastTimestamp = popN)
    ∧ (send_command_with_return_timed 0 7 7 "battery?" 7 ["87"]).slept = 0 :=
  timeout_leaves_timestamp_unchanged 0 0 0 7 7 7 7 "command" "battery?" ["87"]
    q_last_le_now q_now_timeout_le q_tbc_le_timeout

/-! ### Claim C6: `TelloSwarm.fromFile` / `TelloSwarm.fromIps` -/

/-- Python text-mode universal-newline translation applied on read:
`\r\n` and a lone `\r` both become `\n`. -/
def normalizeNewlines : List Char → List Char
  | [] => []
  | '\r' :: '\n' :: rest => '\n' :: normalizeNewlines rest
  | '\r' :: rest => '\n' :: normalizeNewlines rest
  | c :: rest => c :: normalizeNewlines rest

/-- Python `readlines()` on normalized text: split after each newline,
keeping the terminator on each line; an empty file yields no lines and there
is no empty final line after a trailing newline. -/
def splitLinesKeep : List Char → List (List Char)
  | [] => []
  | c :: cs =>
    if c == '\n' then ['\n'] :: splitLinesKeep cs
    else
      match splitLinesKeep cs with
      | [] => [[c]]
      | l :: ls => (c :: l) :: ls

/-- `fd.readlines()` on the contents of the swarm IP file. -/
def pyReadlines (contents : String) : List String :=
  (splitLinesKeep (normalizeNewlines contents.data)).map (⟨·⟩)

/-- `TelloSwarm.fromIps`: reject an empty list, otherwise build one drone per
entry with host `ip.strip()`. The result is the list of drone hosts in order. -/
def TelloSwarm.fromIps (ips : List String) : Except String (List String) :=
  if ips.length = 0 then .error "No ips provided"
  else .ok (ips.map pyStrip)

/-- `TelloSwarm.fromFile`: read the lines of the file and delegate to
`fromIps`. -/
def TelloSwarm.fromFile (contents : String) : Except String (List String) :=
  TelloSwarm.fromIps (pyReadlines contents)

/-- C6 counterexample: a file with one IP line followed by one blank line has
one non-blank line, but the swarm gets two drones — the blank line is not
stripped out; it contributes a drone with the empty string as host. -/
theorem fromFile_keeps_blank_lines :
    TelloSwarm.fromFile "1.1.1.1\n\n" = .ok ["1.1.1.1", ""]
    ∧ ((pyReadlines "1.1.1.1\n\n").filter (fun l => !(pyStrip l == ""))).length = 1
    ∧ (["1.1.1.1", ""] : List String).length ≠ 1 := by
  refine ⟨by decide, by decide, by decide⟩

/-- C6 amended: `fromFile` trims leading and trailing whitespace from each
line but does not drop blank lines — every line of the file, blank or not,
contributes exactly one swarm member whose host is the stripped line, so a
file with k lines yields exactly k drones; `fromIps` raises on an empty list
(hence `fromFile` raises on an empty file). -/
theorem fromFile_one_member_per_line (contents : String)
    (h : pyReadlines contents ≠ []) :
    TelloSwarm.fromFile contents = .ok ((pyReadlines contents).map pyStrip)
    ∧ ((pyReadlines contents).map pyStrip).length = (pyReadlines contents).length
    ∧ TelloSwarm.fromIps [] = .error "No ips provided" := by
  refine ⟨?_, by simp, by rfl⟩
  rw [TelloSwarm.fromFile, TelloSwarm.fromIps,
    if_neg (by simpa [List.length_eq_zero] using h)]

/-- Witness for the amended C6: a one-line file yields exactly one drone. -/
theorem fromFile_one_member_per_line_w :
    TelloSwarm.fromFile "192.168.10.1\n"
      = .ok ((pyReadlines "192.168.10.1\n").map pyStrip)
    ∧ ((pyReadlines "192.168.10.1\n").map pyStrip).length
      = (pyReadlines "192.168.10.1\n").length
    ∧ TelloSwarm.fromIps [] = .error "No ips provided" :=
  fromFile_one_member_per_line "192.168.10.1\n" (by decide)

/-! ### Claim C8: `Tello.query_distance_tof` -/

/-- `Tello.send_read_command` applied to a raw reply datagram: the datagram is
the one popped (and CR/LF-stripped) by `send_command_with_return`; replies
containing an error marker raise, otherwise the trimmed reply is returned. -/
def send_read_command_on (command : String) (retryCount : Nat) (raw : String) :
    Except PyError String :=
  let response := pyRstripCRLF raw
  if pyContains response "error" || pyContains response "ERROR"
      || pyContains response "False" then
    .error (.telloExc (resultErrorMsg command (1 + retryCount) response))
  else .ok response

/-- `Tello.query_distance_tof` on a raw reply datagram: send `tof?`, drop the
trailing two characters of the reply, parse the integer and divide by 10
(Python true division, exact over `ℚ`). -/
def query_distance_tof (retryCount : Nat) (raw : String) : Except PyError ℚ :=
  match send_read_command_on "tof?" retryCount raw with
  | .error e => .error e
  | .ok tof =>
    match pyInt (pySliceDropLast2 tof) with
    | some n => .ok ((n : ℚ) / 10)
    | none => .error .valueError

/-- Decimal value of a digit string. -/
def digitsValue (s : String) : Nat :=
  s.data.foldl (fun a c => 10 * a + (c.toNat - 48)) 0

theorem digit_not_space {c : Char} (h : c.isDigit = true) : pyIsSpace c = false := by
  cases hps : pyIsSpace c
  · rfl
  · exfalso
    simp only [pyIsSpace, Bool.or_eq_true, beq_iff_eq] at hps
    rcases hps with ((((h1 | h1) | h1) | h1) | h1) | h1 <;> rw [h1] at h <;>
      exact absurd h (by decide)

theorem dropWhile_eq_self_of_no_sat {p : Char → Bool} :
    ∀ (l : List Char), (∀ c ∈ l, p c = false) → l.dropWhile p = l
  | [], _ => rfl
  | c :: cs, h => by
    rw [List.dropWhile_cons, h c (List.mem_cons_self _ _)]
    simp

theorem pyStrip_of_no_space (s : String) (h : ∀ c ∈ s.data, pyIsSpace c = false) :
    pyStrip s = s := by
  rw [pyStrip, dropWhile_eq_self_of_no_sat s.data h,
    dropWhile_eq_self_of_no_sat s.data.reverse
      (fun c hc => h c (List.mem_reverse.mp hc)),
    List.reverse_reverse]

theorem pyDigitsGo_digits :
    ∀ (cs : List Char), (∀ c ∈ cs, c.isDigit = true) → ∀ (acc cnt : Nat),
      pyDigitsGo acc cnt false cs
        = some (cs.foldl (fun a c => 10 * a + (c.toNat - 48)) acc, cnt + cs.length)
  | [], _, acc, cnt => by simp [pyDigitsGo]
  | c :: cs, h, acc, cnt => by
    have hc : c.isDigit = true := h c (List.mem_cons_self _ _)
    rw [pyDigitsGo, if_pos hc,
      pyDigitsGo_digits cs (fun x hx => h x (List.mem_cons_of_mem _ hx)) _ _]
    simp only [List.foldl_cons, List.length_cons, Option.some.injEq, Prod.mk.injEq,
      true_and]
    omega

theorem pyInt_digits (s : String) (h1 : s.data ≠ [])
    (h2 : ∀ c ∈ s.data, c.isDigit = true) :
    pyInt s = some ((digitsValue s : Nat) : Int) := by
  rw [pyInt, pyStrip_of_no_space s (fun c hc => digit_not_space (h2 c hc))]
  rcases hd : s.data with _ | ⟨c, rest⟩
  · exact absurd hd h1
  · have hc : c.isDigit = true := h2 c (by rw [hd]; exact List.mem_cons_self _ _)
    have hplus : ¬ ((c == '+') = true) := by
      simp only [beq_iff_eq]
      intro he
      rw [he] at hc
      exact absurd hc (by decide)
    have hminus : ¬ ((c == '-') = true) := by
      simp only [beq_iff_eq]
      intro he
      rw [he] at hc
      exact absurd hc (by decide)
    rw [parseSignedDigits, if_neg hplus, if_neg hminus, pyDigitPart, if_pos hc,
      pyDigitsGo_digits (c :: rest) (fun x hx => h2 x (hd ▸ hx)) 0 0]
    simp [digitsValue, hd]

theorem strOccurs_subset {needle : List Char} :
    ∀ {hay : List Char}, strOccurs needle hay = true → ∀ c ∈ needle, c ∈ hay := by
  intro hay
  induction hay with
  | nil =>
    intro h c hc
    rw [strOccurs, List.isEmpty_iff] at h
    subst h
    simp at hc
  | cons a as ih =>
    intro h c hc
    rw [strOccurs, Bool.or_eq_true] at h
    rcases h with h | h
    · exact (List.isPrefixOf_iff_prefix.mp h).subset hc
    · exact List.mem_cons_of_mem _ (ih h c hc)

theorem no_occurs_of_missing_char {needle hay : List Char} (c : Char) (hc : c ∈ needle)
    (hnc : c ∉ hay) : strOccurs needle hay = false := by
  cases ho : strOccurs needle hay
  · rfl
  · exact absurd (strOccurs_subset ho c hc) hnc

/-- C8: for every reply of the form `<digits>mm` (plus trailing CR/LF) to the
`tof?` query, `query_distance_tof` strips the trailing two characters and
divides the parsed integer by 10, yielding centimetres as the exact decimal
value; in particular the reply `801mm` yields 80.1. -/
theorem query_distance_tof_digits (ds : String) (h1 : ds.data ≠ [])
    (h2 : ∀ c ∈ ds.data, c.isDigit = true) :
    query_distance_tof 3 (ds ++ "mm" ++ "\r\n") = .ok ((digitsValue ds : ℚ) / 10)
    ∧ (digitsValue "801" : ℚ) / 10 = 80.1 := by
  constructor
  · have hdata : (ds ++ "mm" ++ "\r\n").data = ds.data ++ ['m', 'm', '\r', '\n'] := by
      rw [String.data_append, String.data_append, List.append_assoc]
      rfl
    have hrs : pyRstripCRLF (ds ++ "mm" ++ "\r\n") = ⟨ds.data ++ ['m', 'm']⟩ := by
      rw [pyRstripCRLF]
      congr 1
      rw [hdata, show (ds.data ++ ['m', 'm', '\r', '\n']).reverse
          = '\n' :: '\r' :: 'm' :: 'm' :: ds.data.reverse by simp,
        List.dropWhile_cons, if_pos (by decide), List.dropWhile_cons, if_pos (by decide),
        List.dropWhile_cons, if_neg (by decide)]
      simp
    have hchar : ∀ (c : Char), c.isDigit = false → c ≠ 'm' → c ∉ ds.data ++ ['m', 'm'] := by
      intro c hcd hcm hmem
      rcases List.mem_append.mp hmem with hmem | hmem
      · rw [h2 c hmem] at hcd
        exact absurd hcd (by decide)
      · simp only [List.mem_cons, List.not_mem_nil, or_false] at hmem
        rcases hmem with hmem | hmem <;> exact hcm hmem
    have herr1 : pyContains ⟨ds.data ++ ['m', 'm']⟩ "error" = false :=
      no_occurs_of_missing_char 'e' (by decide) (hchar 'e' (by decide) (by decide))
    have herr2 : pyContains ⟨ds.data ++ ['m', 'm']⟩ "ERROR" = false :=
      no_occurs_of_missing_char 'E' (by decide) (hchar 'E' (by decide) (by decide))
    have herr3 : pyContains ⟨ds.data ++ ['m', 'm']⟩ "False" = false :=
      no_occurs_of_missing_char 'F' (by decide) (hchar 'F' (by decide) (by decide))
    have hsro : send_read_command_on "tof?" 3 (ds ++ "mm" ++ "\r\n")
        = .ok ⟨ds.data ++ ['m', 'm']⟩ := by
      simp only [send_read_command_on]
      rw [hrs, herr1, herr2, herr3]
      simp
    have hsl : pySliceDropLast2 (⟨ds.data ++ ['m', 'm']⟩ : String) = ds := by
      show (⟨(ds.data ++ ['m', 'm']).take ((ds.data ++ ['m', 'm']).length - 2)⟩ : String) = ds
      rw [List.length_append, show (['m', 'm'] : List Char).length = 2 from rfl,
        Nat.add_sub_cancel, List.take_left]
    simp only [query_distance_tof]
    rw [hsro]
    simp only
    rw [hsl, pyInt_digits ds h1 h2]
    simp only [Except.ok.injEq]
    rw [Int.cast_natCast]
  · rw [show digitsValue "801" = 801 from by decide]
    norm_num

/-- Witness for C8: the reply `801mm` makes `query_distance_tof` return
exactly 801/10 = 80.1 centimetres. -/
theorem query_distance_tof_digits_w :
    query_distance_tof 3 ("801" ++ "mm" ++ "\r\n") = .ok ((digitsValue "801" : ℚ) / 10)
    ∧ (digitsValue "801" : ℚ) / 10 = 80.1 :=
  query_distance_tof_digits "801" (by decide) (by decide)

/-! ### Claim C9: `BackgroundFrameRead` in latest-only mode -/

/-- A decoded video frame: its dimensions and a pixel function giving the
value of channel `k` of pixel `(i, j)`. -/
structure Frame where
  height : Nat
  width : Nat
  channels : Nat
  px : Nat → Nat → Nat → Nat

/-- `np.zeros([300, 400, 3], dtype=np.uint8)`. -/
def zeroFrame : Frame := ⟨300, 400, 3, fun _ _ _ => 0⟩

/-- `BackgroundFrameRead` state: the mode flag `with_queue`, the
mutex-guarded frame slot `_frame`, the bounded deque of queued frames with
its `maxlen`, and the `stopped` flag. The PyAV container is an external
collaborator and is not modelled. -/
structure BackgroundFrameRead where
  with_queue : Bool
  frame_slot : Frame
  frames : List Frame
  maxsize : Nat
  stopped : Bool

/-- `BackgroundFrameRead.__init__`: the frame slot starts as the zero-filled
300×400×3 frame (assigned through the `frame` setter), the queue starts
empty, and the worker is not stopped. -/
def BackgroundFrameRead.init (with_queue : Bool) (maxsize : Nat) : BackgroundFrameRead :=
  { with_queue := with_queue, frame_slot := zeroFrame, frames := [], maxsize := maxsize,
    stopped := false }

/-- The `frame` property getter: in queue mode pop the oldest queued frame
(`get_queued_frame`, `none` when the queue is empty); in latest-only mode
return the current slot. Returns the read frame and the state afterwards. -/
def BackgroundFrameRead.frame (b : BackgroundFrameRead) :
    Option Frame × BackgroundFrameRead :=
  if b.with_queue then
    match b.frames with
    | [] => (none, b)
    | f :: rest => (some f, { b with frames := rest })
  else (some b.frame_slot, b)

/-- Append to a Python `deque` with `maxlen`: oldest entries are dropped so
that at most `maxlen` elements remain. -/
def dequeAppend (q : List Frame) (maxlen : Nat) (f : Frame) : List Frame :=
  if maxlen = 0 then []
  else if q.length < maxlen then q ++ [f] else (q.drop (q.length + 1 - maxlen)) ++ [f]

/-- One iteration of `BackgroundFrameRead.update_frame` on a freshly decoded
frame: queue mode appends to the deque, latest-only mode overwrites the slot. -/
def BackgroundFrameRead.update_frame (b : BackgroundFrameRead) (f : Frame) :
    BackgroundFrameRead :=
  if b.with_queue then { b with frames := dequeAppend b.frames b.maxsize f }
  else { b with frame_slot := f }

/-- C9: in latest-only mode the frame slot is initialized at worker
construction to the zero-filled 300×400×3 frame; every read of `frame`
returns a non-null frame — the zero frame before any decoded frame arrives
and the most recently decoded frame afterwards — and reading does not change
the state. -/
theorem background_frame_read_latest_only (b : BackgroundFrameRead) (f : Frame)
    (hq : b.with_queue = false) :
    ((BackgroundFrameRead.init false 32).frame).1 = some zeroFrame
    ∧ (b.frame).1 = some b.frame_slot
    ∧ ((b.update_frame f).frame).1 = some f
    ∧ (b.frame).2 = b := by
  refine ⟨rfl, ?_, ?_, ?_⟩
  · rw [BackgroundFrameRead.frame, if_neg (by simp [hq])]
  · rw [BackgroundFrameRead.update_frame, if_neg (by simp [hq]),
      BackgroundFrameRead.frame, if_neg (by simp [hq])]
  · rw [BackgroundFrameRead.frame, if_neg (by simp [hq])]

/-- Witness for C9: the freshly constructed latest-only worker reads the zero
frame, and after one decoded frame it reads that frame. -/
theorem background_frame_read_latest_only_w :
    ((BackgroundFrameRead.init false 32).frame).1 = some zeroFrame
    ∧ ((BackgroundFrameRead.init false 32).frame).1
        = some (BackgroundFrameRead.init false 32).frame_slot
    ∧ (((BackgroundFrameRead.init false 32).update_frame zeroFrame).frame).1 = some zeroFrame
    ∧ ((BackgroundFrameRead.init false 32).frame).2 = BackgroundFrameRead.init false 32 :=
  background_frame_read_latest_only (BackgroundFrameRead.init false 32) zeroFrame rfl
